import Mathlib

/-!
Verification of the `union_future` macro crate (src/lib.rs).

The crate is a single `macro_rules!` generator: given a name, a result type,
an error type and a list of `label => BranchFutureType` pairs, it emits

* a tagged enum with one variant per pair, each holding its branch future,
* an `impl Future` whose `poll` dispatches on the active variant, polls the
  wrapped branch future once, and maps the outcome through `From` conversions
  into the declared result/error types (src/lib.rs lines 86-98, and the
  textually identical `pub` arm at lines 108-139),
* one `impl From<BranchFutureType>` per pair wrapping the value in the
  matching variant (lines 101-106 and 132-137).

We model the generated runtime type for an arbitrary declaration of `n`
branches as a sigma type over `Fin n` (the enum with one variant per branch),
and the external futures 0.1 capability as an explicit state machine.
The macro's declaration surface (rule matching and emitted items) is modelled
separately for the generation-time claims.
-/

/-- Modelled from the spec: the external asynchronous-computation capability
(futures 0.1 `Async`): a poll either produces a ready value or is not ready. -/
inductive Async (A : Type) : Type
  | Ready : A → Async A
  | NotReady : Async A
deriving DecidableEq

/-- Modelled from the spec: futures 0.1 `Poll<A, B> = Result<Async<A>, B>`. -/
def Poll (A B : Type) : Type := Except B (Async A)

/-- Modelled from the spec: the external pollable-computation capability.
`poll` consumes the current state and returns the poll outcome together with
the successor state (futures 0.1 `poll(&mut self)` mutates the future in
place; we pass the state explicitly). -/
structure Future (σ A B : Type) : Type where
  poll : σ → Poll A B × σ

/-- The outcome translation that the generated `poll` body applies to the
branch outcome (src/lib.rs lines 90-94): ready values go through the declared
value conversion, not-ready passes through, errors go through the declared
error conversion. -/
def mapPoll {A B R E : Type} (cv : A → R) (ce : B → E) : Poll A B → Poll R E
  | Except.ok (Async.Ready t) => Except.ok (Async.Ready (cv t))
  | Except.ok Async.NotReady => Except.ok Async.NotReady
  | Except.error e => Except.error (ce e)

/-- The enum generated by the restricted-visibility arm (src/lib.rs lines
78-80): one variant per branch, variant `i` holding one value of branch `i`'s
future state type `σ i`. -/
abbrev UnionFut {n : Nat} (σ : Fin n → Type) : Type := Σ i : Fin n, σ i

/-- The generated `poll` (src/lib.rs lines 86-98): match on the active
variant, poll the wrapped branch future, and map its outcome:
`Ok(Ready(t)) => Ok(Ready(From::from(t)))`, `Ok(NotReady) => Ok(NotReady)`,
`Err(e) => Err(From::from(e))`. `f i` is branch `i`'s future, `cv i`/`ce i`
are the `From` conversions of branch `i`'s item/error types into the declared
result type `R` and error type `E`. -/
def UnionFut.poll {n : Nat} {σ A B : Fin n → Type} {R E : Type}
    (f : ∀ i, Future (σ i) (A i) (B i)) (cv : ∀ i, A i → R) (ce : ∀ i, B i → E) :
    UnionFut σ → Poll R E × UnionFut σ
  | ⟨i, s⟩ =>
    match (f i).poll s with
    | (Except.ok (Async.Ready t), s2) => (Except.ok (Async.Ready (cv i t)), ⟨i, s2⟩)
    | (Except.ok Async.NotReady, s2) => (Except.ok Async.NotReady, ⟨i, s2⟩)
    | (Except.error e, s2) => (Except.error (ce i e), ⟨i, s2⟩)

/-- The generated `impl From<$ft> for $name` (src/lib.rs lines 101-106):
wrap the bare branch-future value in the matching variant. -/
def UnionFut.from_impl {n : Nat} {σ : Fin n → Type} (i : Fin n) (other : σ i) :
    UnionFut σ :=
  ⟨i, other⟩

/-- `k` successive external polls of a union instance, keeping only the
evolving state (each step is one call of the generated `poll`). -/
def UnionFut.pollN {n : Nat} {σ A B : Fin n → Type} {R E : Type}
    (f : ∀ i, Future (σ i) (A i) (B i)) (cv : ∀ i, A i → R) (ce : ∀ i, B i → E) :
    Nat → UnionFut σ → UnionFut σ
  | 0, u => u
  | k + 1, u => UnionFut.pollN f cv ce k (UnionFut.poll f cv ce u).2

/-- The enum generated by the exported-visibility arm (src/lib.rs lines
109-111); its shape is identical to the restricted arm, only the `pub`
qualifier differs. -/
abbrev UnionFutPub {n : Nat} (σ : Fin n → Type) : Type := Σ i : Fin n, σ i

/-- The generated `poll` of the `pub` arm (src/lib.rs lines 117-129),
transcribed separately because the macro duplicates the whole emission. -/
def UnionFutPub.poll {n : Nat} {σ A B : Fin n → Type} {R E : Type}
    (f : ∀ i, Future (σ i) (A i) (B i)) (cv : ∀ i, A i → R) (ce : ∀ i, B i → E) :
    UnionFutPub σ → Poll R E × UnionFutPub σ
  | ⟨i, s⟩ =>
    match (f i).poll s with
    | (Except.ok (Async.Ready t), s2) => (Except.ok (Async.Ready (cv i t)), ⟨i, s2⟩)
    | (Except.ok Async.NotReady, s2) => (Except.ok Async.NotReady, ⟨i, s2⟩)
    | (Except.error e, s2) => (Except.error (ce i e), ⟨i, s2⟩)

/-- The generated `impl From<$ft> for $name` of the `pub` arm (src/lib.rs
lines 132-137). -/
def UnionFutPub.from_impl {n : Nat} {σ : Fin n → Type} (i : Fin n) (other : σ i) :
    UnionFutPub σ :=
  ⟨i, other⟩

/- ## Declaration surface of the macro -/

/-- One `label => BranchType` pair of a declaration, as token text. -/
structure BranchDecl where
  label : String
  ty : String
deriving DecidableEq

/-- An invocation of the macro, at the shape of its matchers
(src/lib.rs lines 77 and 108): a header `name<item, err>` followed either by
nothing (`tail = none`) or by a comma and a comma-separated, possibly empty,
list of `label => BranchType` pairs (`tail = some pairs`); the literal comma
after `$err:ty` is part of the fixed pattern and `$($n:tt => $ft:ty),*`
admits zero repetitions. -/
structure Invocation where
  isPub : Bool
  name : String
  item : String
  err : String
  tail : Option (List BranchDecl)
deriving DecidableEq

/-- The enum item the macro emits: one variant per declared pair. -/
structure GeneratedEnum where
  isPub : Bool
  name : String
  variants : List BranchDecl
deriving DecidableEq

/-- The items the macro emits: the enum, and the source type of each emitted
`impl From<$ft> for $name` (one per declared pair, src/lib.rs lines 101-106
and 132-137). -/
structure GeneratedCode where
  enum : GeneratedEnum
  fromImpls : List String
deriving DecidableEq

/-- The expansion of a successfully matched invocation: the enum with one
variant per pair and one `From` impl per pair. -/
def genCode (vis : Bool) (nm : String) (pairs : List BranchDecl) : GeneratedCode :=
  ⟨⟨vis, nm, pairs⟩, pairs.map (fun b => b.ty)⟩

/-- The macro `union_future!` at the declaration level (src/lib.rs lines
76-140): an invocation matches one of the two rules exactly when the comma
after the error type is present (`tail = some pairs`, `pairs` possibly
empty), and then expands to the generated items; otherwise no rule matches
and expansion fails. -/
def union_future (inv : Invocation) : Option GeneratedCode :=
  match inv.tail with
  | none => none
  | some pairs => some (genCode inv.isPub inv.name pairs)

/-- Models Rust trait-impl coherence for the emitted conversions: the
expanded program is accepted by the compiler only if no two emitted
`impl From<T> for $name` share the same source type `T`. -/
def fromImplsCoherent (g : GeneratedCode) : Prop := g.fromImpls.Nodup

/- ## Fixtures, following the conformance tests (src/lib.rs lines 142-233) -/

/-- The tests' error type (src/lib.rs lines 148-152). -/
inductive TestError : Type
  | Fail : TestError
  | BigFail : TestError
deriving DecidableEq

/-- The tests' second error type (src/lib.rs lines 154-157). -/
structure OtherError where
  op : Nat
deriving DecidableEq

/-- `impl From<OtherError> for Error` of the tests (src/lib.rs lines
159-163): every `OtherError` converts to `BigFail`. -/
def otherToError : OtherError → TestError := fun _ => TestError.BigFail

/-- Modelled from the spec: the external `Empty` future, a computation that
never completes — every poll reports not-yet-ready. -/
def emptyFut {σ A B : Type} : Future σ A B :=
  ⟨fun s => (Except.ok Async.NotReady, s)⟩

/-- Modelled from the spec: an immediately-ready external computation
(the `ok(v)` future of the tests), completing with `v` on every poll. -/
def okFut {σ A B : Type} (v : A) : Future σ A B :=
  ⟨fun s => (Except.ok (Async.Ready v), s)⟩

/-- Modelled from the spec: an immediately-failing external computation,
reporting error `e` on every poll. -/
def errFut {σ A B : Type} (e : B) : Future σ A B :=
  ⟨fun s => (Except.error e, s)⟩

/-- A dependent pair of values over `Fin 2`, to build two-branch fixtures. -/
def pair2 {C : Fin 2 → Sort u} (x : C 0) (y : C 1) : ∀ i, C i
  | 0 => x
  | 1 => y

/-- Branch futures of the `same_types` test (src/lib.rs lines 166-176):
`Forever => Empty<u64, Error>`, `Immediate => FutureResult<u64, Error>`
holding 5; `u64` values are modelled as `Nat`. -/
def sameF : ∀ _ : Fin 2, Future Unit Nat TestError :=
  pair2 emptyFut (okFut 5)

/-- Identity value conversions of the `same_types` test (`From<u64>` for
`u64` is the identity). -/
def sameCv : ∀ _ : Fin 2, Nat → Nat := fun _ => id

/-- Identity error conversions of the `same_types` test. -/
def sameCe : ∀ _ : Fin 2, TestError → TestError := fun _ => id

/-- Branch value types of the `different_item_types` test (src/lib.rs lines
179-188): `Number => FutureResult<u32, Error>` and a second branch; `u32`
values are modelled as `Nat` and `f64` values as `Int`, which is exact on
every image of the `From<u32> for f64` conversion. -/
def diffA : Fin 2 → Type := pair2 Nat Int

/-- Branch futures of the `different_item_types` fixture: branch `Number`
immediately ready with `5u32`. -/
def diffF : ∀ i : Fin 2, Future Unit (diffA i) TestError :=
  pair2 (okFut (5 : Nat) : Future Unit Nat TestError)
    (okFut (0 : Int) : Future Unit Int TestError)

/-- The declared value conversions of the `different_item_types` fixture:
`From<u32> for f64` modelled as the exact embedding of `Nat` into `Int`. -/
def diffCv : ∀ i : Fin 2, diffA i → Int := pair2 Int.ofNat id

/-- The declared error conversions of the `different_item_types` fixture. -/
def diffCe : ∀ _ : Fin 2, TestError → TestError := fun _ => id

/-- Branch error types of the `different_err_types` test (src/lib.rs lines
191-201): the second branch fails with `OtherError`. -/
def errB : Fin 2 → Type := pair2 TestError OtherError

/-- Branch futures of the `different_err_types` fixture: the second branch
immediately fails with `OtherError { op: 1 }`. -/
def errF : ∀ i : Fin 2, Future Unit Nat (errB i) :=
  pair2 (okFut 5) (errFut ⟨1⟩)

/-- Value conversions of the `different_err_types` fixture. -/
def errCv : ∀ _ : Fin 2, Nat → Int := fun _ => Int.ofNat

/-- Error conversions of the `different_err_types` fixture: branch 1 uses
`From<OtherError> for Error`. -/
def errCe : ∀ i : Fin 2, errB i → TestError := pair2 id otherToError

/-- The invocation `union_future!(TestFut<u64, Error>,)`: header, the
mandatory comma, and zero pairs. -/
def emptyTailInv : Invocation := ⟨false, "TestFut", "u64", "Error", some []⟩

/-- The invocation `union_future!(TestFut<u64, Error>)`: header only, no
comma after the error type. -/
def noCommaInv : Invocation := ⟨false, "TestFut", "u64", "Error", none⟩

/-- A declaration whose two branches share the branch type
`FutureResult<u64, Error>`. -/
def dupPairs : List BranchDecl :=
  [⟨"A", "FutureResult<u64, Error>"⟩, ⟨"B", "FutureResult<u64, Error>"⟩]

/-- An invocation carrying the duplicate-branch-type declaration. -/
def dupInv : Invocation := ⟨false, "TestFut", "u64", "Error", some dupPairs⟩

/- ## Helper lemmas -/

/-- Unfolding of the generated `poll` on a variant: it polls the active
branch once and maps the outcome through the declared conversions. -/
theorem UnionFut.poll_unfold {n : Nat} {σ A B : Fin n → Type} {R E : Type}
    (f : ∀ i, Future (σ i) (A i) (B i)) (cv : ∀ i, A i → R) (ce : ∀ i, B i → E)
    (i : Fin n) (s : σ i) :
    UnionFut.poll f cv ce ⟨i, s⟩
      = (mapPoll (cv i) (ce i) ((f i).poll s).1, ⟨i, ((f i).poll s).2⟩) := by
  rcases h : (f i).poll s with ⟨r, s2⟩
  rcases r with e | a
  · simp [UnionFut.poll, h, mapPoll]
  · rcases a with t | _ <;> simp [UnionFut.poll, h, mapPoll]

/-- Unfolding of the `pub` arm's generated `poll` on a variant. -/
theorem UnionFutPub.pub_poll_unfold {n : Nat} {σ A B : Fin n → Type} {R E : Type}
    (f : ∀ i, Future (σ i) (A i) (B i)) (cv : ∀ i, A i → R) (ce : ∀ i, B i → E)
    (i : Fin n) (s : σ i) :
    UnionFutPub.poll f cv ce ⟨i, s⟩
      = (mapPoll (cv i) (ce i) ((f i).poll s).1, ⟨i, ((f i).poll s).2⟩) := by
  rcases h : (f i).poll s with ⟨r, s2⟩
  rcases r with e | a
  · simp [UnionFutPub.poll, h, mapPoll]
  · rcases a with t | _ <;> simp [UnionFutPub.poll, h, mapPoll]

/-- Any number of polls leaves the instance in the variant it was
constructed with, holding some state of that same branch. -/
theorem UnionFut.pollN_mk {n : Nat} {σ A B : Fin n → Type} {R E : Type}
    (f : ∀ i, Future (σ i) (A i) (B i)) (cv : ∀ i, A i → R) (ce : ∀ i, B i → E)
    (k : Nat) (i : Fin n) (s : σ i) :
    ∃ t : σ i, UnionFut.pollN f cv ce k ⟨i, s⟩ = ⟨i, t⟩ := by
  induction k generalizing s with
  | zero => exact ⟨s, rfl⟩
  | succ k ih =>
    have h := UnionFut.poll_unfold f cv ce i s
    have : UnionFut.pollN f cv ce (k + 1) ⟨i, s⟩
        = UnionFut.pollN f cv ce k ⟨i, ((f i).poll s).2⟩ := by
      simp [UnionFut.pollN, h]
    rw [this]
    exact ih ((f i).poll s).2

/- ## Claims -/

/-- C1: one external poll of a generated union instance dispatches on the
active variant tag to exactly one poll of the wrapped branch future — the
successor state is the same variant holding the state after that single
branch poll, so no other variant is touched and there is no retry loop —
and the branch outcome is mapped deterministically: not-ready to not-ready,
ready `v` to ready `cv i v`, error `e` to error `ce i e`. -/
theorem union_poll_dispatches_once {n : Nat} {σ A B : Fin n → Type} {R E : Type}
    (f : ∀ i, Future (σ i) (A i) (B i)) (cv : ∀ i, A i → R) (ce : ∀ i, B i → E)
    (i : Fin n) (s : σ i) :
    (UnionFut.poll f cv ce ⟨i, s⟩).2 = ⟨i, ((f i).poll s).2⟩
    ∧ (∀ s2, (f i).poll s = (Except.ok Async.NotReady, s2) →
        (UnionFut.poll f cv ce ⟨i, s⟩).1 = Except.ok Async.NotReady)
    ∧ (∀ v s2, (f i).poll s = (Except.ok (Async.Ready v), s2) →
        (UnionFut.poll f cv ce ⟨i, s⟩).1 = Except.ok (Async.Ready (cv i v)))
    ∧ (∀ e s2, (f i).poll s = (Except.error e, s2) →
        (UnionFut.poll f cv ce ⟨i, s⟩).1 = Except.error (ce i e)) := by
  refine ⟨by rw [UnionFut.poll_unfold], ?_, ?_, ?_⟩
  · intro s2 h
    rw [UnionFut.poll_unfold, h]
    rfl
  · intro v s2 h
    rw [UnionFut.poll_unfold, h]
    rfl
  · intro e s2 h
    rw [UnionFut.poll_unfold, h]
    rfl

/-- Witness for C1 on the `same_types` fixture: polling the `Immediate`
variant yields ready `5`. -/
theorem union_poll_dispatches_once_witness :
    (UnionFut.poll sameF sameCv sameCe ⟨1, ()⟩).1
      = Except.ok (Async.Ready (5 : Nat)) :=
  (union_poll_dispatches_once sameF sameCv sameCe 1 ()).2.2.1 5 () rfl

/-- C2: constructing via any branch from a branch future whose poll is
immediately ready with `v` and polling once yields completed with the
declared value conversion applied to `v`. -/
theorem construct_ready_first_poll {n : Nat} {σ A B : Fin n → Type} {R E : Type}
    (f : ∀ i, Future (σ i) (A i) (B i)) (cv : ∀ i, A i → R) (ce : ∀ i, B i → E)
    (i : Fin n) (s : σ i) (v : A i)
    (h : ((f i).poll s).1 = Except.ok (Async.Ready v)) :
    (UnionFut.poll f cv ce (UnionFut.from_impl i s)).1
      = Except.ok (Async.Ready (cv i v)) := by
  show (UnionFut.poll f cv ce ⟨i, s⟩).1 = Except.ok (Async.Ready (cv i v))
  rw [UnionFut.poll_unfold, h]
  rfl

/-- Witness for C2 on the `different_item_types` fixture: branch `Number`
wraps a computation immediately ready with `5u32`, and the union (result
type `f64`, modelled exactly on integral values by `Int`) completes with the
converted `5` on first poll. -/
theorem construct_ready_first_poll_witness :
    (UnionFut.poll diffF diffCv diffCe (UnionFut.from_impl 0 ())).1
      = Except.ok (Async.Ready (5 : Int)) :=
  construct_ready_first_poll diffF diffCv diffCe 0 () ((5 : Nat) : diffA 0) rfl

/-- C3: the active variant is an invariant of polling — one poll keeps the
instance in its variant, and any number of polls of an instance constructed
in variant `i` leaves it in variant `i`. -/
theorem variant_identity_invariant {n : Nat} {σ A B : Fin n → Type} {R E : Type}
    (f : ∀ i, Future (σ i) (A i) (B i)) (cv : ∀ i, A i → R) (ce : ∀ i, B i → E) :
    (∀ u : UnionFut σ, (UnionFut.poll f cv ce u).2.1 = u.1)
    ∧ ∀ (k : Nat) (i : Fin n) (s : σ i),
        (UnionFut.pollN f cv ce k (UnionFut.from_impl i s)).1 = i := by
  constructor
  · intro u
    rcases u with ⟨i, s⟩
    rw [UnionFut.poll_unfold]
  · intro k i s
    obtain ⟨t, ht⟩ := UnionFut.pollN_mk f cv ce k i s
    show (UnionFut.pollN f cv ce k ⟨i, s⟩).1 = i
    rw [ht]

/-- C4: round-trip — converting a bare branch-future value into the union
via the emitted `From` impl and polling produces exactly the branch's own
single poll outcome, mapped through the declared value/error conversions,
with the successor instance being the converted successor branch state. -/
theorem round_trip_poll {n : Nat} {σ A B : Fin n → Type} {R E : Type}
    (f : ∀ i, Future (σ i) (A i) (B i)) (cv : ∀ i, A i → R) (ce : ∀ i, B i → E)
    (i : Fin n) (s : σ i) :
    UnionFut.poll f cv ce (UnionFut.from_impl i s)
      = (mapPoll (cv i) (ce i) ((f i).poll s).1,
          UnionFut.from_impl i ((f i).poll s).2) :=
  UnionFut.poll_unfold f cv ce i s

/-- C5: the exported-visibility arm and the restricted-visibility arm of the
macro generate behaviorally identical code — their `poll` functions and
their per-branch `From` constructions agree on all inputs. -/
theorem pub_visibility_same_behavior {n : Nat} {σ A B : Fin n → Type} {R E : Type}
    (f : ∀ i, Future (σ i) (A i) (B i)) (cv : ∀ i, A i → R) (ce : ∀ i, B i → E) :
    (∀ u : UnionFutPub σ, UnionFutPub.poll f cv ce u = UnionFut.poll f cv ce u)
    ∧ ∀ (i : Fin n) (s : σ i),
        UnionFutPub.from_impl i s = UnionFut.from_impl i s := by
  constructor
  · intro u
    rcases u with ⟨i, s⟩
    rw [UnionFutPub.pub_poll_unfold, UnionFut.poll_unfold]
  · intro i s
    rfl

/-- C6: every branch failure becomes a union failure — if the active
branch's poll reports error `e`, the union poll reports error `ce i e`,
staying in the same variant with the branch's successor state, with no retry
and no suppression. -/
theorem branch_error_forwarded {n : Nat} {σ A B : Fin n → Type} {R E : Type}
    (f : ∀ i, Future (σ i) (A i) (B i)) (cv : ∀ i, A i → R) (ce : ∀ i, B i → E)
    (i : Fin n) (s : σ i) (e : B i) (s2 : σ i)
    (h : (f i).poll s = (Except.error e, s2)) :
    UnionFut.poll f cv ce ⟨i, s⟩ = (Except.error (ce i e), ⟨i, s2⟩) := by
  rw [UnionFut.poll_unfold, h]
  rfl

/-- Witness for C6 on the `different_err_types` fixture: the branch failing
with `OtherError { op: 1 }` makes the union fail with the converted error
`BigFail`. -/
theorem branch_error_forwarded_witness :
    UnionFut.poll errF errCv errCe ⟨1, ()⟩
      = (Except.error TestError.BigFail, ⟨1, ()⟩) :=
  branch_error_forwarded errF errCv errCe 1 () ⟨1⟩ () rfl

/-- C7 counterexample: an invocation carrying zero `label => type` pairs
(the form with the mandatory comma present, `union_future!(TestFut<u64,
Error>,)`) matches the macro rule and generation succeeds, producing a union
type — with zero variants and zero `From` impls — rather than failing. -/
theorem empty_branch_list_generates :
    union_future emptyTailInv = some ⟨⟨false, "TestFut", []⟩, []⟩ := rfl

/-- C7 amended: invoking the macro with an empty branch list and no comma
after the error type fails to match any rule, so generation fails; but the
branch repetition admits zero occurrences, so the invocation with the comma
and zero pairs matches and generates a zero-variant union type, which is
uninhabited. -/
theorem empty_branch_list_amended :
    union_future noCommaInv = none
    ∧ union_future emptyTailInv = some ⟨⟨false, "TestFut", []⟩, []⟩
    ∧ IsEmpty (UnionFut (fun _ : Fin 0 => Unit)) :=
  ⟨rfl, rfl, ⟨fun u => u.1.elim0⟩⟩

/-- C8: not-ready passthrough — if the active branch's poll reports
not-yet-ready in every state, then after any number `k` of polls of the
instance constructed in that branch, the next poll of the union still
reports not-yet-ready. -/
theorem never_ready_passthrough {n : Nat} {σ A B : Fin n → Type} {R E : Type}
    (f : ∀ i, Future (σ i) (A i) (B i)) (cv : ∀ i, A i → R) (ce : ∀ i, B i → E)
    (i : Fin n) (s : σ i)
    (h : ∀ t : σ i, ((f i).poll t).1 = Except.ok Async.NotReady) (k : Nat) :
    (UnionFut.poll f cv ce
        (UnionFut.pollN f cv ce k (UnionFut.from_impl i s))).1
      = Except.ok Async.NotReady := by
  obtain ⟨t, ht⟩ := UnionFut.pollN_mk f cv ce k i s
  show (UnionFut.poll f cv ce (UnionFut.pollN f cv ce k ⟨i, s⟩)).1
      = Except.ok Async.NotReady
  rw [ht, UnionFut.poll_unfold, h t]
  rfl

/-- Witness for C8 on the `same_types` fixture: the `Forever` variant wraps
the never-completing `Empty` future, and after three polls the fourth still
reports not-yet-ready. -/
theorem never_ready_passthrough_witness :
    (UnionFut.poll sameF sameCv sameCe
        (UnionFut.pollN sameF sameCv sameCe 3 (UnionFut.from_impl 0 ()))).1
      = Except.ok Async.NotReady :=
  never_ready_passthrough sameF sameCv sameCe 0 () (fun _ => rfl) 3

/-- C9: terminal outcomes are stable when queried again via the same
terminal branch state — if the branch poll leaves its state unchanged, an
immediate re-poll of the union returns the identical outcome, and one branch
state never yields both a completion and a failure (no flip-flopping). -/
theorem terminal_outcome_stable {n : Nat} {σ A B : Fin n → Type} {R E : Type}
    (f : ∀ i, Future (σ i) (A i) (B i)) (cv : ∀ i, A i → R) (ce : ∀ i, B i → E)
    (i : Fin n) (s : σ i) (hstat : ((f i).poll s).2 = s) :
    UnionFut.poll f cv ce ((UnionFut.poll f cv ce ⟨i, s⟩).2)
      = UnionFut.poll f cv ce ⟨i, s⟩
    ∧ ∀ (v : R) (e : E),
        ¬ ((UnionFut.poll f cv ce ⟨i, s⟩).1 = Except.ok (Async.Ready v)
            ∧ (UnionFut.poll f cv ce ⟨i, s⟩).1 = Except.error e) := by
  constructor
  · have h2 : (UnionFut.poll f cv ce ⟨i, s⟩).2 = ⟨i, s⟩ := by
      rw [UnionFut.poll_unfold, hstat]
    rw [h2]
  · intro v e hve
    have h12 := hve.1.symm.trans hve.2
    exact Except.noConfusion h12

/-- Witness for C9 on the `same_types` fixture: the `Immediate` variant's
branch state is stationary, and re-polling after the completed poll returns
the same outcome. -/
theorem terminal_outcome_stable_witness :
    UnionFut.poll sameF sameCv sameCe
        ((UnionFut.poll sameF sameCv sameCe ⟨1, ()⟩).2)
      = UnionFut.poll sameF sameCv sameCe ⟨1, ()⟩ :=
  (terminal_outcome_stable sameF sameCv sameCe 1 () rfl).1

/-- C10: a declaration whose branch list carries two distinct positions with
the same branch type still matches the macro and expands, but the expansion
emits one `From` impl per branch, so it contains two `impl From<T>` with the
same source type, and under Rust impl coherence the expanded program is
rejected at compile time. -/
theorem duplicate_branch_type_conflicting_impls
    (inv : Invocation) (pairs : List BranchDecl) (h : inv.tail = some pairs)
    (j k : Fin pairs.length) (hjk : j ≠ k)
    (hty : (pairs.get j).ty = (pairs.get k).ty) :
    union_future inv = some (genCode inv.isPub inv.name pairs)
    ∧ ¬ fromImplsCoherent (genCode inv.isPub inv.name pairs) := by
  constructor
  · simp [union_future, h]
  · intro hco
    have hnd : (pairs.map (fun b => b.ty)).Nodup := hco
    have hjm : (j : Nat) < (pairs.map (fun b => b.ty)).length := by
      simp
    have hkm : (k : Nat) < (pairs.map (fun b => b.ty)).length := by
      simp
    have hget : (pairs.map (fun b => b.ty)).get ⟨j, hjm⟩
        = (pairs.map (fun b => b.ty)).get ⟨k, hkm⟩ := by
      simpa using hty
    have heq := hnd.get_inj_iff.mp hget
    apply hjk
    apply Fin.ext
    simpa using congrArg Fin.val heq

/-- Witness for C10: the declaration with two branches both of type
`FutureResult<u64, Error>` expands, and its emitted `From` impls are not
coherent. -/
theorem duplicate_branch_type_conflicting_impls_witness :
    union_future dupInv = some (genCode false "TestFut" dupPairs)
    ∧ ¬ fromImplsCoherent (genCode false "TestFut" dupPairs) :=
  duplicate_branch_type_conflicting_impls dupInv dupPairs rfl
    ⟨0, by decide⟩ ⟨1, by decide⟩ (by decide) rfl
